import Mathlib

/-!
Verification development for the OpenClaw bot-to-bot job marketplace.

This file gives a shallow embedding of the job lifecycle state machine,
the escrow coordinator, the fee computation, the USDC transfer
verification and the x402 paywall middleware of the repository, and
proves (or refutes) the specification claims about them.

Conventions of the embedding:
  - JavaScript `Date` values and `NOW()` timestamps are natural numbers,
    passed explicitly as `now` parameters where the code reads a clock.
  - `bigint` amounts are `Int`.
  - The in-memory `Map` stores are association lists with JS `Map.set`
    semantics (replace in place if present, append otherwise); the job
    table is a `List Job` keyed by `Job.id`.
  - Long-running chain-adapter calls (submit / confirm / fetch) are
    modelled by explicit outcome parameters: `Option String` is a
    submitted-and-confirmed transaction signature (`none` = the call
    threw), `Option Bool` an on-chain verification outcome.
-/

namespace OpenClaw

/-- Job lifecycle states, from `JobStatus` in src/config/constants.
`opened` embeds the source's `OPEN` (a Lean keyword). -/
inductive JobStatus where
  | pendingDeposit
  | opened
  | claimed
  | completed
  | paid
  | cancelled
  | expired
deriving DecidableEq, Repr

/-- The Job row, from the `Job` interface in src/models/job.ts (SQL
variant) and its in-memory twin.  `bountyUsdc` is kept as a rational. -/
structure Job where
  id : String
  title : String
  description : String
  bountyUsdc : Rat
  bountyAtomic : Int
  requesterWallet : String
  workerWallet : Option String
  status : JobStatus
  tags : List String
  createdAt : Nat
  claimedAt : Option Nat
  completedAt : Option Nat
  paidAt : Option Nat
  paymentTxSig : Option String
  escrowDepositTx : Option String
  escrowVerifiedAt : Option Nat
  escrowReleaseTx : Option String
  expiresAt : Option Nat
deriving DecidableEq, Repr

/-- Job store: the rows of the `jobs` table / the values of the
in-memory `jobs` map, in insertion order. -/
abbrev JobStore := List Job

/-- Lookup by id, embedding `jobs.get(id)` / `SELECT * FROM jobs WHERE id = $1`. -/
def getJob : JobStore → String → Option Job
  | [], _ => none
  | j :: rest, id => if j.id == id then some j else getJob rest id

/-- Replace the row whose id matches, embedding an in-place mutation of
the stored job object (or `UPDATE ... WHERE id = ...`). -/
def replaceJob : JobStore → String → Job → JobStore
  | [], _, _ => []
  | j :: rest, id, j' =>
    if j.id == id then j' :: replaceJob rest id j'
    else j :: replaceJob rest id j'

/-- Embeds `markJobPaid` (src/models/job.ts lines 210-220, SQL:
`UPDATE ... SET status = PAID, payment_tx_sig, paid_at = NOW() WHERE id
AND status = COMPLETED`; identically guarded in the in-memory variant).
Returns the updated row (or `none` when the guard fails) and the store. -/
def markJobPaid (store : JobStore) (id txSig : String) (now : Nat) :
    Option Job × JobStore :=
  match getJob store id with
  | none => (none, store)
  | some j =>
    if j.status = .completed then
      let j' := { j with status := .paid, paymentTxSig := some txSig, paidAt := some now }
      (some j', replaceJob store id j')
    else
      (none, store)

/-- Embeds `markEscrowReleased` (src/models/job.ts lines 132-142):
`UPDATE jobs SET status = PAID, payment_tx_sig = $2, paid_at = NOW()
WHERE id = $3` — note there is no status condition in the WHERE clause.
The in-memory twin (same name) likewise updates unconditionally,
writing `escrowReleaseTx` instead of `paymentTxSig`. -/
def markEscrowReleased (store : JobStore) (id releaseTxSig : String) (now : Nat) :
    Option Job × JobStore :=
  match getJob store id with
  | none => (none, store)
  | some j =>
    let j' := { j with status := .paid, paymentTxSig := some releaseTxSig, paidAt := some now }
    (some j', replaceJob store id j')

/-- Embeds `expireJob` (in-memory store lines 130-139 and src/models/job.ts
lines 120-130): the only guard is `status = OPEN`; neither variant reads
`expiresAt` or a clock. -/
def expireJob (store : JobStore) (id : String) : Option Job × JobStore :=
  match getJob store id with
  | none => (none, store)
  | some j =>
    if j.status = .opened then
      let j' := { j with status := .expired }
      (some j', replaceJob store id j')
    else
      (none, store)

/-- Embeds `cancelJob` (both store variants): requires the caller to be
the requester and the status to be PENDING_DEPOSIT or OPEN. -/
def cancelJob (store : JobStore) (id requesterWallet : String) :
    Option Job × JobStore :=
  match getJob store id with
  | none => (none, store)
  | some j =>
    if j.requesterWallet = requesterWallet ∧
        (j.status = .pendingDeposit ∨ j.status = .opened) then
      let j' := { j with status := .cancelled }
      (some j', replaceJob store id j')
    else
      (none, store)

/-- Descending-by-`createdAt` comparator of the in-memory `listJobs`
(`(a, b) => b.createdAt.getTime() - a.createdAt.getTime()`): `a` sorts
before `b` exactly when `b.createdAt ≤ a.createdAt`. -/
def createdDescLe (a b : Job) : Bool :=
  decide (b.createdAt ≤ a.createdAt)

/-- Embeds the in-memory `listJobs` (in-memory job store lines 156-162):
with a status filter it returns `all.filter(...)` — in insertion order,
unsorted; without a filter it returns `all.sort(...)` descending by
`createdAt` (JS sort is stable; `mergeSort` matches). -/
def listJobs (store : JobStore) : Option JobStatus → List Job
  | some st => store.filter (fun j => j.status == st)
  | none => store.mergeSort createdDescLe

/-- Embeds the SQL `listJobs` (src/models/job.ts lines 153-168): both
the filtered and the unfiltered query carry `ORDER BY created_at DESC`. -/
def listJobsSql (store : JobStore) : Option JobStatus → List Job
  | some st => (store.filter (fun j => j.status == st)).mergeSort createdDescLe
  | none => store.mergeSort createdDescLe

/-- A job list is ordered by `createdAt` descending. -/
def SortedByCreatedDesc (l : List Job) : Prop :=
  l.Pairwise (fun a b => b.createdAt ≤ a.createdAt)

instance (l : List Job) : Decidable (SortedByCreatedDesc l) := by
  unfold SortedByCreatedDesc
  infer_instance

/-- Fee basis points, from `calculateFees` in src/config/constants.ts:
`BigInt(Math.round(PLATFORM_FEE_PERCENT * 100))`.  The float percent is
embedded as a rational; `Math.round` (half away from zero on positive
input) matches Mathlib `round` for non-negative percentages. -/
def feeBasisPoints (feePercent : Rat) : Int :=
  round (feePercent * 100)

/-- Embeds `calculateFees` (src/config/constants.ts lines 34-39):
`platformFee = (totalAtomic * feeBasisPoints) / 10000n` with BigInt
division (truncation toward zero, `Int.tdiv`), and
`workerAmount = totalAtomic - platformFee`.  Returns
`(workerAmount, platformFee)`. -/
def calculateFees (feePercent : Rat) (totalAtomic : Int) : Int × Int :=
  let platformFee := Int.tdiv (totalAtomic * feeBasisPoints feePercent) 10000
  (totalAtomic - platformFee, platformFee)

/-- One entry of a confirmed transaction's `preTokenBalances` /
`postTokenBalances` arrays (the chain adapter's view of a token
account's balance before/after the transaction). -/
structure TokenBalance where
  accountIndex : Nat
  mint : String
  owner : String
  amount : Int
deriving DecidableEq, Repr

/-- The metadata of a fetched confirmed transaction (`tx.meta`). -/
structure TxMeta where
  preTokenBalances : List TokenBalance
  postTokenBalances : List TokenBalance
deriving DecidableEq, Repr

/-- The pre-balance lookup of `verifyUsdcTransfer`:
`preBalances.find(p => p.accountIndex === post.accountIndex && p.mint === post.mint)`. -/
def findPre (pres : List TokenBalance) (post : TokenBalance) : Option TokenBalance :=
  pres.find? (fun p => p.accountIndex == post.accountIndex && p.mint == post.mint)

/-- The loop body of `verifyUsdcTransfer` for one post-balance entry:
skip on mint mismatch, skip when no matching pre entry exists, accept
when the owner is the expected recipient and the balance delta is at
least the expected amount. -/
def checkPost (cfgMint expectedRecipient : String) (expectedAmountAtomic : Int)
    (pres : List TokenBalance) (post : TokenBalance) : Bool :=
  if post.mint != cfgMint then false
  else
    match findPre pres post with
    | none => false
    | some pre =>
      post.owner == expectedRecipient &&
        decide (expectedAmountAtomic ≤ post.amount - pre.amount)

/-- Embeds `verifyUsdcTransfer` (src/solana/usdc.ts lines 82-132).
`fetched` is the result of `conn.getTransaction` (`none` when the
transaction or its meta is absent, in which case the function returns
false).  The `expectedSender` parameter is accepted but never read, as
in the source. -/
def verifyUsdcTransfer (cfgMint : String) (fetched : Option TxMeta)
    (expectedSender expectedRecipient : String) (expectedAmountAtomic : Int) : Bool :=
  match fetched with
  | none => false
  | some meta =>
    meta.postTokenBalances.any
      (checkPost cfgMint expectedRecipient expectedAmountAtomic meta.preTokenBalances)

/-- Escrow record status, from `EscrowRecord` in src/services/escrow-service.ts. -/
inductive EscrowStatus where
  | held
  | released
  | refunded
deriving DecidableEq, Repr

/-- String form of an escrow status, for the interpolated error
messages of the escrow service. -/
def escrowStatusString : EscrowStatus → String
  | .held => "held"
  | .released => "released"
  | .refunded => "refunded"

/-- The escrow record, from src/services/escrow-service.ts lines 13-23. -/
structure EscrowRecord where
  jobId : String
  requesterWallet : String
  workerWallet : Option String
  amountAtomic : Int
  depositTxSig : String
  depositVerifiedAt : Nat
  status : EscrowStatus
  releaseTxSig : Option String
  releasedAt : Option Nat
deriving DecidableEq, Repr

/-- The escrow service's module state: the `escrowRecords` map (jobId →
record) and the `usedDepositTxs` set. -/
structure EscrowState where
  escrowRecords : List (String × EscrowRecord)
  usedDepositTxs : List String
deriving DecidableEq, Repr

/-- JS `Map.get` on the record map. -/
def lookupRecord : List (String × EscrowRecord) → String → Option EscrowRecord
  | [], _ => none
  | (k', v') :: rest, k => if k' == k then some v' else lookupRecord rest k

/-- JS `Map.set` on the record map: replace in place when the key is
present, append otherwise (also the shape of an in-place mutation of a
record obtained from `Map.get`). -/
def setRecord : List (String × EscrowRecord) → String → EscrowRecord →
    List (String × EscrowRecord)
  | [], k, v => [(k, v)]
  | (k', v') :: rest, k, v =>
    if k' == k then (k, v) :: rest
    else (k', v') :: setRecord rest k v

/-- Result shape of `EscrowService.verifyDeposit`. -/
structure DepositResult where
  success : Bool
  error : Option String
deriving DecidableEq, Repr

/-- Embeds `EscrowService.verifyDeposit` (src/services/escrow-service.ts
lines 57-112).  `chainOutcome` is the awaited `verifyUsdcTransfer`
result: `some b` when the call returned `b`, `none` when it threw (the
catch branch). -/
def verifyDeposit (s : EscrowState) (jobId requesterWallet : String)
    (expectedAmountAtomic : Int) (depositTxSig : String)
    (chainOutcome : Option Bool) (now : Nat) : DepositResult × EscrowState :=
  if depositTxSig ∈ s.usedDepositTxs then
    (⟨false, some "Deposit transaction already used"⟩, s)
  else if (lookupRecord s.escrowRecords jobId).isSome then
    (⟨false, some "Job already has escrow deposit"⟩, s)
  else
    match chainOutcome with
    | none => (⟨false, some "Verification failed"⟩, s)
    | some false =>
      (⟨false, some "Deposit not verified - check amount and recipient"⟩, s)
    | some true =>
      let record : EscrowRecord :=
        { jobId := jobId, requesterWallet := requesterWallet, workerWallet := none,
          amountAtomic := expectedAmountAtomic, depositTxSig := depositTxSig,
          depositVerifiedAt := now, status := .held, releaseTxSig := none,
          releasedAt := none }
      (⟨true, none⟩,
       ⟨setRecord s.escrowRecords jobId record, depositTxSig :: s.usedDepositTxs⟩)

/-- Result shape of `releaseToWorker` / `refundToRequester`. -/
structure EscrowOpResult where
  success : Bool
  txSig : Option String
  error : Option String
deriving DecidableEq, Repr

/-- Embeds `EscrowService.releaseToWorker` (src/services/escrow-service.ts
lines 118-200).  `keypairLoaded` is whether the escrow keypair was
configured; `chainOutcome` is the submitted-and-confirmed release
transaction signature, `none` when any chain step up to confirmation
threw.  The record mutation happens only after confirmation. -/
def releaseToWorker (s : EscrowState) (keypairLoaded : Bool)
    (jobId workerWallet : String) (chainOutcome : Option String) (now : Nat) :
    EscrowOpResult × EscrowState :=
  match lookupRecord s.escrowRecords jobId with
  | none => (⟨false, none, some "No escrow record found"⟩, s)
  | some record =>
    if record.status ≠ .held then
      (⟨false, none, some ("Escrow already " ++ escrowStatusString record.status)⟩, s)
    else if ¬keypairLoaded then
      (⟨false, none, some "Escrow wallet not configured for releases"⟩, s)
    else
      match chainOutcome with
      | none => (⟨false, none, some "Release transaction failed"⟩, s)
      | some txSig =>
        let record' := { record with
          status := .released, workerWallet := some workerWallet,
          releaseTxSig := some txSig, releasedAt := some now }
        (⟨true, some txSig, none⟩,
         ⟨setRecord s.escrowRecords jobId record', s.usedDepositTxs⟩)

/-- Embeds `EscrowService.refundToRequester` (src/services/escrow-service.ts
lines 206-266): requires a held record and a configured keypair, builds
a full-amount refund, and marks the record refunded only after the
chain transaction confirmed. -/
def refundToRequester (s : EscrowState) (keypairLoaded : Bool)
    (jobId : String) (chainOutcome : Option String) (now : Nat) :
    EscrowOpResult × EscrowState :=
  match lookupRecord s.escrowRecords jobId with
  | none => (⟨false, none, some "No escrow record found"⟩, s)
  | some record =>
    if record.status ≠ .held then
      (⟨false, none, some ("Escrow already " ++ escrowStatusString record.status)⟩, s)
    else if ¬keypairLoaded then
      (⟨false, none, some "Escrow wallet not configured"⟩, s)
    else
      match chainOutcome with
      | none => (⟨false, none, some "Refund transaction failed"⟩, s)
      | some txSig =>
        let record' := { record with
          status := .refunded, releaseTxSig := some txSig, releasedAt := some now }
        (⟨true, some txSig, none⟩,
         ⟨setRecord s.escrowRecords jobId record', s.usedDepositTxs⟩)

/-- Embeds `EscrowService.hasVerifiedEscrow`. -/
def hasVerifiedEscrow (s : EscrowState) (jobId : String) : Bool :=
  match lookupRecord s.escrowRecords jobId with
  | some record => record.status == .held
  | none => false

/-- One invocation of an escrow-service mutator, with its chain
outcomes made explicit, for reasoning about call sequences. -/
inductive EscrowOp where
  | verify (jobId requesterWallet : String) (expectedAmountAtomic : Int)
      (depositTxSig : String) (chainOutcome : Option Bool) (now : Nat)
  | release (keypairLoaded : Bool) (jobId workerWallet : String)
      (chainOutcome : Option String) (now : Nat)
  | refund (keypairLoaded : Bool) (jobId : String)
      (chainOutcome : Option String) (now : Nat)

/-- State after one escrow-service call (result discarded). -/
def applyOp (s : EscrowState) : EscrowOp → EscrowState
  | .verify jobId r a txSig chain now => (verifyDeposit s jobId r a txSig chain now).2
  | .release kp jobId w chain now => (releaseToWorker s kp jobId w chain now).2
  | .refund kp jobId chain now => (refundToRequester s kp jobId chain now).2

/-- State after a sequence of escrow-service calls. -/
def applyOps (s : EscrowState) (ops : List EscrowOp) : EscrowState :=
  ops.foldl applyOp s

/-- The decoded `X-Payment` header payload, from `X402Payment` in the
payment service. -/
structure X402Payment where
  serializedTransaction : String
deriving DecidableEq, Repr

/-- Outcome of `paymentService.verifyAndSubmitPayment`: resolved with
success, resolved with failure, or rejected (threw). -/
inductive VerifyStep where
  | ok (txSig : String)
  | failed (txSig : String)
  | threw
deriving DecidableEq, Repr

/-- Observable outcome of the x402 paywall middleware: an HTTP response
with a given status (recording whether the `X-Payment-Required`
challenge header was attached), or a pass-through to the result handler
(recording whether the `X-Payment-Response` header was attached). -/
inductive PaywallResult where
  | respond (httpStatus : Nat) (paymentRequiredHeader : Bool)
  | passThrough (paymentResponseHeader : Bool)
deriving DecidableEq, Repr

/-- Embeds the `x402Paywall` middleware (src/server/app.ts, paywall
section).  `parse` is `paymentService.parsePaymentHeader` (pure base64 /
JSON decoding) and `verify` the outcome of
`paymentService.verifyAndSubmitPayment`.  Branches, in source order:
job missing → 404; status outside {COMPLETED, PAID} → 400; PAID →
pass-through (cached result); no header → 402 with challenge header;
unparseable header → 400; verification failure → 402 without the
challenge header; thrown verification → 500; success → `markJobPaid`
and pass-through with the `X-Payment-Response` header. -/
def x402Paywall (store : JobStore) (jobId : String)
    (paymentHeader : Option String) (parse : String → Option X402Payment)
    (verify : X402Payment → VerifyStep) (now : Nat) :
    PaywallResult × JobStore :=
  match getJob store jobId with
  | none => (.respond 404 false, store)
  | some job =>
    if job.status ≠ .completed ∧ job.status ≠ .paid then
      (.respond 400 false, store)
    else if job.status = .paid then
      (.passThrough false, store)
    else
      match paymentHeader with
      | none => (.respond 402 true, store)
      | some header =>
        match parse header with
        | none => (.respond 400 false, store)
        | some payment =>
          match verify payment with
          | .threw => (.respond 500 false, store)
          | .failed _ => (.respond 402 false, store)
          | .ok txSig =>
            let store' := (markJobPaid store jobId txSig now).2
            (.passThrough true, store')

/-- Embeds the `POST /api/v1/jobs/:id/cancel` handler
(src/server/routes/jobs.ts lines 154-188): resolve the job (404),
check the caller is the requester (403), check the status is
PENDING_DEPOSIT or OPEN (400); for an OPEN job with a held escrow,
refund first and answer 500 on refund failure without touching the job;
only then apply the job-store cancel and answer 200.  Wallet-syntax
validation (performed at job creation) is elided.  Returns the HTTP
status and both stores. -/
def cancelRoute (store : JobStore) (es : EscrowState) (id requesterWallet : String)
    (keypairLoaded : Bool) (chainOutcome : Option String) (now : Nat) :
    Nat × JobStore × EscrowState :=
  match getJob store id with
  | none => (404, store, es)
  | some job =>
    if job.requesterWallet ≠ requesterWallet then
      (403, store, es)
    else if job.status ≠ .pendingDeposit ∧ job.status ≠ .opened then
      (400, store, es)
    else if job.status = .opened ∧ hasVerifiedEscrow es id then
      let (refundResult, es') := refundToRequester es keypairLoaded id chainOutcome now
      if refundResult.success then
        (200, (cancelJob store id requesterWallet).2, es')
      else
        (500, store, es')
    else
      (200, (cancelJob store id requesterWallet).2, es)

/-! Helper lemmas about the store primitives. -/

lemma getJob_replaceJob (store : JobStore) (id : String) (j j' : Job)
    (hfind : getJob store id = some j) (hid : j'.id = j.id) :
    getJob (replaceJob store id j') id = some j' := by
  induction store with
  | nil => simp [getJob] at hfind
  | cons k rest ih =>
    unfold getJob at hfind
    unfold replaceJob
    by_cases hk : (k.id == id) = true
    · rw [if_pos hk] at hfind
      have hjk : j = k := by simpa using hfind.symm
      subst hjk
      rw [if_pos hk]
      unfold getJob
      rw [if_pos (show (j'.id == id) = true by rw [hid]; exact hk)]
    · rw [if_neg hk] at hfind
      rw [if_neg hk]
      unfold getJob
      rw [if_neg hk]
      exact ih hfind

lemma lookupRecord_setRecord_self (m : List (String × EscrowRecord))
    (k : String) (v : EscrowRecord) :
    lookupRecord (setRecord m k v) k = some v := by
  induction m with
  | nil => simp [setRecord, lookupRecord]
  | cons p rest ih =>
    obtain ⟨k', v'⟩ := p
    unfold setRecord
    by_cases hk : (k' == k) = true
    · rw [if_pos hk]
      unfold lookupRecord
      rw [if_pos (by simp)]
    · rw [if_neg hk]
      unfold lookupRecord
      rw [if_neg hk]
      exact ih

lemma usedDepositTxs_applyOp_sub (s : EscrowState) (op : EscrowOp) :
    s.usedDepositTxs ⊆ (applyOp s op).usedDepositTxs := by
  cases op with
  | verify jobId r a txSig chain now =>
    show s.usedDepositTxs ⊆ (verifyDeposit s jobId r a txSig chain now).2.usedDepositTxs
    unfold verifyDeposit
    split
    · exact fun t ht => ht
    · split
      · exact fun t ht => ht
      · match chain with
        | none => exact fun t ht => ht
        | some false => exact fun t ht => ht
        | some true => exact fun t ht => List.mem_cons_of_mem _ ht
  | release kp jobId w chain now =>
    show s.usedDepositTxs ⊆ (releaseToWorker s kp jobId w chain now).2.usedDepositTxs
    unfold releaseToWorker
    split
    · exact fun t ht => ht
    · split
      · exact fun t ht => ht
      · split
        · exact fun t ht => ht
        · match chain with
          | none => exact fun t ht => ht
          | some sig => exact fun t ht => ht
  | refund kp jobId chain now =>
    show s.usedDepositTxs ⊆ (refundToRequester s kp jobId chain now).2.usedDepositTxs
    unfold refundToRequester
    split
    · exact fun t ht => ht
    · split
      · exact fun t ht => ht
      · split
        · exact fun t ht => ht
        · match chain with
          | none => exact fun t ht => ht
          | some sig => exact fun t ht => ht

lemma usedDepositTxs_applyOps_sub (s : EscrowState) (ops : List EscrowOp) :
    s.usedDepositTxs ⊆ (applyOps s ops).usedDepositTxs := by
  induction ops generalizing s with
  | nil => exact fun t ht => ht
  | cons op rest ih =>
    intro t ht
    exact ih (applyOp s op) (usedDepositTxs_applyOp_sub s op ht)

/-! Concrete fixtures used by counterexamples and witnesses. -/

/-- A concrete OPEN job with a future deadline. -/
def sampleJob : Job :=
  { id := "job_c0ffee01", title := "t", description := "d", bountyUsdc := 1/10,
    bountyAtomic := 100000, requesterWallet := "REQWALLET", workerWallet := some "WRKWALLET",
    status := .opened, tags := [], createdAt := 10, claimedAt := none, completedAt := none,
    paidAt := none, paymentTxSig := none, escrowDepositTx := some "DEPSIG",
    escrowVerifiedAt := some 11, escrowReleaseTx := none, expiresAt := some 1000 }

/-- The sample job already settled through the paywall. -/
def samplePaidJob : Job :=
  { sampleJob with
    status := .paid,
    paymentTxSig := some "FIRSTSIG",
    claimedAt := some 20,
    completedAt := some 30,
    paidAt := some 50 }

/-- The sample job in the COMPLETED state. -/
def sampleCompletedJob : Job :=
  { sampleJob with status := .completed, claimedAt := some 20, completedAt := some 30 }

/-! Claim theorems. -/

/-- C1, counterexample: the escrow settlement path does not go through a
COMPLETED-gated update.  `markEscrowReleased` applied to a job that is
already PAID with `paymentTxSig = FIRSTSIG` succeeds and overwrites the
payment signature with `SECONDSIG`, so a PAID job receives a second
`paymentTxSig`, contradicting the claim. -/
theorem c1_counterexample :
    samplePaidJob.status = .paid ∧
    samplePaidJob.paymentTxSig = some "FIRSTSIG" ∧
    (markEscrowReleased [samplePaidJob] "job_c0ffee01" "SECONDSIG" 99).1 =
      some { samplePaidJob with paymentTxSig := some "SECONDSIG", paidAt := some 99 } ∧
    getJob (markEscrowReleased [samplePaidJob] "job_c0ffee01" "SECONDSIG" 99).2
        "job_c0ffee01" =
      some { samplePaidJob with paymentTxSig := some "SECONDSIG", paidAt := some 99 } := by
  refine ⟨rfl, rfl, ?_, ?_⟩ <;> rfl

/-- C1, amended: the paywall path `markJobPaid` becomes PAID only from
current status COMPLETED and is a no-op on any other status, but the
escrow release path `markEscrowReleased` has no status precondition: on
any existing job — including one already PAID — it succeeds, sets status
PAID and overwrites `paymentTxSig` and `paidAt`, so a PAID job can
receive a second `paymentTxSig` when both settlement paths run. -/
theorem c1_amended (store : JobStore) (id txSig : String) (now : Nat) (j : Job)
    (hget : getJob store id = some j) :
    (j.status ≠ .completed → markJobPaid store id txSig now = (none, store)) ∧
    (markEscrowReleased store id txSig now).1 =
      some { j with status := .paid, paymentTxSig := some txSig, paidAt := some now } ∧
    getJob (markEscrowReleased store id txSig now).2 id =
      some { j with status := .paid, paymentTxSig := some txSig, paidAt := some now } := by
  refine ⟨?_, ?_, ?_⟩
  · intro h
    simp only [markJobPaid, hget, if_neg h]
  · simp only [markEscrowReleased, hget]
  · simp only [markEscrowReleased, hget]
    exact getJob_replaceJob store id j _ hget rfl

/-- C1, witness for the amended theorem at the concrete PAID sample job. -/
theorem c1_amended_witness :
    markJobPaid [samplePaidJob] "job_c0ffee01" "X" 7 = (none, [samplePaidJob]) :=
  (c1_amended [samplePaidJob] "job_c0ffee01" "X" 7 samplePaidJob rfl).1 (by decide)

/-- C5: for non-negative amounts and a non-negative fee percentage, the
platform fee is the floor of `amount * feeBasisPoints / 10000` (the
BigInt truncating division coincides with floor division here), the
worker amount plus the platform fee add back to the amount, and the
spec's example (amount 100000, five percent) splits 95000 / 5000. -/
theorem c5_calculateFees_split (a : Int) (p : Rat) (ha : 0 ≤ a) (hp : 0 ≤ p) :
    (calculateFees p a).2 = Int.fdiv (a * feeBasisPoints p) 10000 ∧
    (calculateFees p a).1 + (calculateFees p a).2 = a ∧
    calculateFees 5 100000 = (95000, 5000) := by
  have hbps : 0 ≤ feeBasisPoints p := by
    unfold feeBasisPoints
    rw [round_eq]
    exact Int.floor_nonneg.mpr (by positivity)
  have hnum : 0 ≤ a * feeBasisPoints p := mul_nonneg ha hbps
  refine ⟨?_, ?_, ?_⟩
  · show Int.tdiv (a * feeBasisPoints p) 10000 = Int.fdiv (a * feeBasisPoints p) 10000
    rw [Int.tdiv_eq_ediv hnum (by norm_num), Int.fdiv_eq_ediv _ (by norm_num)]
  · show a - Int.tdiv (a * feeBasisPoints p) 10000 + Int.tdiv (a * feeBasisPoints p) 10000 = a
    exact sub_add_cancel a _
  · have h1 : feeBasisPoints 5 = 500 := by
      unfold feeBasisPoints
      norm_num [round_eq]
    unfold calculateFees
    rw [h1]
    decide

/-- C5, witness at the spec's own example. -/
theorem c5_witness :
    (calculateFees 5 100000).1 + (calculateFees 5 100000).2 = 100000 ∧
    calculateFees 5 100000 = (95000, 5000) :=
  ⟨(c5_calculateFees_split 100000 5 (by norm_num) (by norm_num)).2.1,
   (c5_calculateFees_split 100000 5 (by norm_num) (by norm_num)).2.2⟩

/-- C8, counterexample: `expireJob` flips the OPEN sample job to EXPIRED
even though its `expiresAt` (1000) lies in the future — the function
consults no clock at all, so the transition happens for every current
time, also those before the deadline. -/
theorem c8_counterexample :
    sampleJob.status = .opened ∧
    sampleJob.expiresAt = some 1000 ∧
    (expireJob [sampleJob] "job_c0ffee01").1 = some { sampleJob with status := .expired } := by
  exact ⟨rfl, rfl, rfl⟩

/-- C8, amended: `expire(id)` transitions any OPEN job to EXPIRED
unconditionally, never reading `expiresAt` or the current time (the
deadline check exists only in the unused `JobService.isExpired` helper);
jobs in any other status are left unchanged. -/
theorem c8_amended (store : JobStore) (id : String) (j : Job)
    (hget : getJob store id = some j) :
    (j.status = .opened →
      expireJob store id =
        (some { j with status := .expired }, replaceJob store id { j with status := .expired })) ∧
    (j.status ≠ .opened → expireJob store id = (none, store)) := by
  constructor
  · intro h
    simp only [expireJob, hget, if_pos h]
  · intro h
    simp only [expireJob, hget, if_neg h]

/-- C8, witness for the amended theorem at the concrete OPEN sample job. -/
theorem c8_amended_witness :
    expireJob [sampleJob] "job_c0ffee01" =
      (some { sampleJob with status := .expired }, [{ sampleJob with status := .expired }]) := by
  have h := (c8_amended [sampleJob] "job_c0ffee01" sampleJob rfl).1 rfl
  exact h.trans (by rfl)

/-- C9, counterexample: in the in-memory store, `listJobs` with a status
filter returns the matching jobs in insertion order without sorting:
for two OPEN jobs inserted oldest-first the filtered list comes back
ascending by `createdAt`, not descending as the claim states. -/
theorem c9_counterexample :
    listJobs [{ sampleJob with id := "job_a", createdAt := 1 },
              { sampleJob with id := "job_b", createdAt := 2 }] (some .opened) =
      [{ sampleJob with id := "job_a", createdAt := 1 },
       { sampleJob with id := "job_b", createdAt := 2 }] ∧
    ¬ SortedByCreatedDesc
        (listJobs [{ sampleJob with id := "job_a", createdAt := 1 },
                   { sampleJob with id := "job_b", createdAt := 2 }] (some .opened)) := by
  constructor
  · rfl
  · decide

/-- C9, amended: the unfiltered in-memory `list()` returns all jobs
ordered by `createdAt` descending, and the filtered `list(status)`
returns exactly the jobs with that status but in insertion order,
unsorted; only the SQL store variant orders the filtered query as well
(both its cases are `ORDER BY created_at DESC`). -/
theorem c9_amended (store : JobStore) (st : JobStatus) :
    (listJobs store none).Perm store ∧
    SortedByCreatedDesc (listJobs store none) ∧
    listJobs store (some st) = store.filter (fun j => j.status == st) ∧
    (listJobsSql store (some st)).Perm (store.filter (fun j => j.status == st)) ∧
    SortedByCreatedDesc (listJobsSql store (some st)) := by
  have htrans : ∀ a b c : Job, createdDescLe a b = true → createdDescLe b c = true →
      createdDescLe a c = true := by
    intro a b c hab hbc
    unfold createdDescLe at *
    simp only [decide_eq_true_eq] at *
    omega
  have htotal : ∀ a b : Job, (createdDescLe a b || createdDescLe b a) = true := by
    intro a b
    unfold createdDescLe
    simp only [Bool.or_eq_true, decide_eq_true_eq]
    omega
  have hsorted : ∀ l : List Job, SortedByCreatedDesc (l.mergeSort createdDescLe) := by
    intro l
    have h := List.sorted_mergeSort htrans htotal l
    exact h.imp (by intro a b hab; simpa [createdDescLe] using hab)
  refine ⟨?_, ?_, rfl, ?_, ?_⟩
  · exact List.mergeSort_perm store createdDescLe
  · exact hsorted store
  · exact List.mergeSort_perm _ createdDescLe
  · exact hsorted _

lemma checkPost_eq_true_iff (cfgMint recip : String) (expected : Int)
    (pres : List TokenBalance) (post : TokenBalance)
    (hnodup : (pres.map TokenBalance.accountIndex).Nodup) :
    checkPost cfgMint recip expected pres post = true ↔
      post.owner = recip ∧ post.mint = cfgMint ∧
        ∃ pre ∈ pres, pre.accountIndex = post.accountIndex ∧ pre.mint = post.mint ∧
          expected ≤ post.amount - pre.amount := by
  unfold checkPost findPre
  by_cases hm : (post.mint != cfgMint) = true
  · rw [if_pos hm]
    simp only [Bool.false_eq_true, false_iff]
    rintro ⟨_, hmint, _⟩
    exact ((by simpa using hm : post.mint ≠ cfgMint)) hmint
  · rw [if_neg hm]
    have hmint : post.mint = cfgMint := by simpa using hm
    cases hfind : pres.find?
        (fun p => p.accountIndex == post.accountIndex && p.mint == post.mint) with
    | none =>
      simp only [Bool.false_eq_true, false_iff]
      rintro ⟨hown, _, pre, hpre, hai, hpm, hle⟩
      have hsome : (pres.find?
          (fun p => p.accountIndex == post.accountIndex && p.mint == post.mint)).isSome :=
        List.find?_isSome.mpr ⟨pre, hpre, by simp [hai, hpm]⟩
      rw [hfind] at hsome
      simp at hsome
    | some pre0 =>
      have hmem := List.mem_of_find?_eq_some hfind
      have hp := List.find?_some hfind
      simp only [Bool.and_eq_true, beq_iff_eq] at hp
      obtain ⟨hai0, hpm0⟩ := hp
      constructor
      · intro h
        simp only [Bool.and_eq_true, beq_iff_eq, decide_eq_true_eq] at h
        exact ⟨h.1, hmint, pre0, hmem, hai0, hpm0, h.2⟩
      · rintro ⟨hown, _, pre, hpre, hai, hpm, hle⟩
        have hpp : pre = pre0 :=
          List.inj_on_of_nodup_map hnodup hpre hmem (by rw [hai, hai0])
        subst hpp
        simp only [Bool.and_eq_true, beq_iff_eq, decide_eq_true_eq]
        exact ⟨hown, hle⟩

/-- C2: confirmed.  `verifyUsdcTransfer` (and through it, the chain
check of `verifyDeposit`) accepts the fetched transaction iff some
post-token-balance entry has the configured escrow wallet as owner, the
configured mint, and a post-minus-pre delta (against its matching pre
entry) of at least the expected atomic amount; a missing transaction is
rejected; the expected-sender argument is never consulted; and for a
fresh deposit signature on a job without an escrow record,
`verifyDeposit` succeeds exactly when `verifyUsdcTransfer` accepts.
The pre-balance entries are assumed to have pairwise distinct
`accountIndex` values, which the chain metadata format guarantees. -/
theorem c2_deposit_verification_spec (cfgMint escrowWallet sender1 sender2 : String)
    (meta : TxMeta) (expected : Int)
    (hnodup : (meta.preTokenBalances.map TokenBalance.accountIndex).Nodup) :
    (verifyUsdcTransfer cfgMint (some meta) sender1 escrowWallet expected = true ↔
      ∃ post ∈ meta.postTokenBalances, post.owner = escrowWallet ∧ post.mint = cfgMint ∧
        ∃ pre ∈ meta.preTokenBalances, pre.accountIndex = post.accountIndex ∧
          pre.mint = post.mint ∧ expected ≤ post.amount - pre.amount) ∧
    verifyUsdcTransfer cfgMint (some meta) sender1 escrowWallet expected =
      verifyUsdcTransfer cfgMint (some meta) sender2 escrowWallet expected ∧
    verifyUsdcTransfer cfgMint none sender1 escrowWallet expected = false ∧
    (∀ (s : EscrowState) (jobId depositTxSig : String) (now : Nat),
      depositTxSig ∉ s.usedDepositTxs →
      lookupRecord s.escrowRecords jobId = none →
      ((verifyDeposit s jobId sender1 expected depositTxSig
          (some (verifyUsdcTransfer cfgMint (some meta) sender1 escrowWallet expected))
          now).1.success = true ↔
        verifyUsdcTransfer cfgMint (some meta) sender1 escrowWallet expected = true)) := by
  refine ⟨?_, rfl, rfl, ?_⟩
  · unfold verifyUsdcTransfer
    rw [List.any_eq_true]
    constructor
    · rintro ⟨post, hmem, hcheck⟩
      exact ⟨post, hmem,
        (checkPost_eq_true_iff cfgMint escrowWallet expected
          meta.preTokenBalances post hnodup).mp hcheck⟩
    · rintro ⟨post, hmem, hspec⟩
      exact ⟨post, hmem,
        (checkPost_eq_true_iff cfgMint escrowWallet expected
          meta.preTokenBalances post hnodup).mpr hspec⟩
  · intro s jobId depositTxSig now hfresh hnorec
    unfold verifyDeposit
    rw [if_neg hfresh]
    simp only [hnorec, Option.isSome_none, Bool.false_eq_true, if_false]
    cases hb : verifyUsdcTransfer cfgMint (some meta) sender1 escrowWallet expected <;> simp

/-- C2, witness: a concrete one-transfer transaction whose post entry
credits the escrow wallet with exactly the expected amount is accepted. -/
theorem c2_witness :
    verifyUsdcTransfer "MINT" (some ⟨[⟨1, "MINT", "ESCROW", 5⟩], [⟨1, "MINT", "ESCROW", 100005⟩]⟩)
      "SENDER" "ESCROW" 100000 = true := by
  have h := (c2_deposit_verification_spec "MINT" "ESCROW" "SENDER" "OTHER"
    ⟨[⟨1, "MINT", "ESCROW", 5⟩], [⟨1, "MINT", "ESCROW", 100005⟩]⟩ 100000 (by decide)).1
  exact h.mpr ⟨⟨1, "MINT", "ESCROW", 100005⟩, by decide, rfl, rfl,
    ⟨1, "MINT", "ESCROW", 5⟩, by decide, rfl, rfl, by decide⟩

lemma verifyDeposit_replay (s : EscrowState) (jobId r : String) (a : Int)
    (txSig : String) (chain : Option Bool) (now : Nat) (h : txSig ∈ s.usedDepositTxs) :
    verifyDeposit s jobId r a txSig chain now =
      (⟨false, some "Deposit transaction already used"⟩, s) := by
  unfold verifyDeposit
  rw [if_pos h]

lemma verifyDeposit_success_shape (s : EscrowState) (jobId r : String) (a : Int)
    (txSig : String) (chain : Option Bool) (now : Nat)
    (h : (verifyDeposit s jobId r a txSig chain now).1.success = true) :
    (verifyDeposit s jobId r a txSig chain now).2.usedDepositTxs = txSig :: s.usedDepositTxs := by
  unfold verifyDeposit at h ⊢
  by_cases h1 : txSig ∈ s.usedDepositTxs
  · rw [if_pos h1] at h
    simp at h
  · rw [if_neg h1] at h ⊢
    by_cases h2 : (lookupRecord s.escrowRecords jobId).isSome = true
    · rw [if_pos h2] at h
      simp at h
    · rw [if_neg h2] at h ⊢
      rcases chain with _ | b
      · simp at h
      · rcases b
        · simp at h
        · rfl

/-- C3: confirmed.  If a `verifyDeposit` call succeeds with some
`depositTxSig`, then after any later sequence of escrow-service calls
(further deposits, releases, refunds — for any jobs and chain
outcomes), a `verifyDeposit` with the same `depositTxSig` — for any
job, including a different one — fails with the replay error and
returns the state untouched, creating no escrow record. -/
theorem c3_deposit_replay_rejected (s : EscrowState) (jobId requesterWallet : String)
    (amount : Int) (depositTxSig : String) (chain : Option Bool) (now : Nat)
    (hsuccess : (verifyDeposit s jobId requesterWallet amount depositTxSig chain now).1.success
      = true)
    (ops : List EscrowOp) (jobId2 requester2 : String) (amount2 : Int)
    (chain2 : Option Bool) (now2 : Nat) :
    verifyDeposit
        (applyOps (verifyDeposit s jobId requesterWallet amount depositTxSig chain now).2 ops)
        jobId2 requester2 amount2 depositTxSig chain2 now2 =
      (⟨false, some "Deposit transaction already used"⟩,
       applyOps (verifyDeposit s jobId requesterWallet amount depositTxSig chain now).2 ops) := by
  have hmem : depositTxSig ∈
      (verifyDeposit s jobId requesterWallet amount depositTxSig chain now).2.usedDepositTxs := by
    rw [verifyDeposit_success_shape s jobId requesterWallet amount depositTxSig chain now hsuccess]
    exact List.mem_cons_self _ _
  have hmem2 : depositTxSig ∈
      (applyOps (verifyDeposit s jobId requesterWallet amount depositTxSig chain now).2
        ops).usedDepositTxs :=
    usedDepositTxs_applyOps_sub _ ops hmem
  exact verifyDeposit_replay _ jobId2 requester2 amount2 depositTxSig chain2 now2 hmem2

/-- C3, witness: from the empty escrow state, a verified deposit for
job A makes the same signature fail for job B after an intervening
release attempt, leaving the state unchanged. -/
theorem c3_witness :
    verifyDeposit
        (applyOps (verifyDeposit ⟨[], []⟩ "job_a" "REQ" 100000 "DEPSIG" (some true) 1).2
          [.release true "job_a" "WRK" (some "RELSIG") 2])
        "job_b" "REQ2" 100000 "DEPSIG" (some true) 3 =
      (⟨false, some "Deposit transaction already used"⟩,
       applyOps (verifyDeposit ⟨[], []⟩ "job_a" "REQ" 100000 "DEPSIG" (some true) 1).2
         [.release true "job_a" "WRK" (some "RELSIG") 2]) :=
  c3_deposit_replay_rejected ⟨[], []⟩ "job_a" "REQ" 100000 "DEPSIG" (some true) 1
    (by decide) [.release true "job_a" "WRK" (some "RELSIG") 2] "job_b" "REQ2" 100000
    (some true) 3

/-- A concrete held escrow record for witnesses. -/
def sampleRecord : EscrowRecord :=
  { jobId := "job_a", requesterWallet := "REQ", workerWallet := none,
    amountAtomic := 100000, depositTxSig := "DEPSIG", depositVerifiedAt := 1,
    status := .held, releaseTxSig := none, releasedAt := none }

/-- A concrete escrow state holding `sampleRecord`. -/
def sampleEscrowState : EscrowState :=
  ⟨[("job_a", sampleRecord)], ["DEPSIG"]⟩

lemma releaseToWorker_none (s : EscrowState) (kp : Bool) (jobId w : String)
    (chain : Option String) (now : Nat)
    (hnone : lookupRecord s.escrowRecords jobId = none) :
    releaseToWorker s kp jobId w chain now =
      (⟨false, none, some "No escrow record found"⟩, s) := by
  simp only [releaseToWorker, hnone]

lemma releaseToWorker_notHeld (s : EscrowState) (kp : Bool) (jobId w : String)
    (chain : Option String) (now : Nat) (rec : EscrowRecord)
    (hrec : lookupRecord s.escrowRecords jobId = some rec)
    (hstat : rec.status ≠ .held) :
    releaseToWorker s kp jobId w chain now =
      (⟨false, none, some ("Escrow already " ++ escrowStatusString rec.status)⟩, s) := by
  simp only [releaseToWorker, hrec, if_pos hstat]

lemma releaseToWorker_noKeypair (s : EscrowState) (jobId w : String)
    (chain : Option String) (now : Nat) (rec : EscrowRecord)
    (hrec : lookupRecord s.escrowRecords jobId = some rec)
    (hheld : rec.status = .held) :
    releaseToWorker s false jobId w chain now =
      (⟨false, none, some "Escrow wallet not configured for releases"⟩, s) := by
  have hns : ¬ rec.status ≠ EscrowStatus.held := fun h => h hheld
  simp [releaseToWorker, hrec, hns]

lemma releaseToWorker_chainFail (s : EscrowState) (jobId w : String) (now : Nat)
    (rec : EscrowRecord)
    (hrec : lookupRecord s.escrowRecords jobId = some rec)
    (hheld : rec.status = .held) :
    releaseToWorker s true jobId w none now =
      (⟨false, none, some "Release transaction failed"⟩, s) := by
  have hns : ¬ rec.status ≠ EscrowStatus.held := fun h => h hheld
  simp [releaseToWorker, hrec, hns]

lemma releaseToWorker_chainOk (s : EscrowState) (jobId w sig : String) (now : Nat)
    (rec : EscrowRecord)
    (hrec : lookupRecord s.escrowRecords jobId = some rec)
    (hheld : rec.status = .held) :
    releaseToWorker s true jobId w (some sig) now =
      (⟨true, some sig, none⟩,
       ⟨setRecord s.escrowRecords jobId
          { rec with
            status := .released,
            workerWallet := some w,
            releaseTxSig := some sig,
            releasedAt := some now }, s.usedDepositTxs⟩) := by
  have hns : ¬ rec.status ≠ EscrowStatus.held := fun h => h hheld
  simp [releaseToWorker, hrec, hns]

/-- C4: confirmed.  `releaseToWorker` fails with no state change when
the job has no escrow record or the record is not `held`; when the
record is `held` but the chain submit/confirm step throws, it returns
failure with the state — in particular the record, still `held` with
its `releaseTxSig` untouched — unchanged; and whenever it reports
success, the chain step confirmed some signature and the record was
updated to `released` with that `releaseTxSig` and `releasedAt`. -/
theorem c4_release_failure_atomic (s : EscrowState) (kp : Bool) (jobId w : String)
    (chain : Option String) (now : Nat) :
    (lookupRecord s.escrowRecords jobId = none →
      releaseToWorker s kp jobId w chain now =
        (⟨false, none, some "No escrow record found"⟩, s)) ∧
    (∀ rec, lookupRecord s.escrowRecords jobId = some rec → rec.status ≠ .held →
      (releaseToWorker s kp jobId w chain now).1.success = false ∧
      (releaseToWorker s kp jobId w chain now).2 = s) ∧
    (∀ rec, lookupRecord s.escrowRecords jobId = some rec → rec.status = .held →
      chain = none →
      (releaseToWorker s kp jobId w chain now).1.success = false ∧
      (releaseToWorker s kp jobId w chain now).2 = s ∧
      lookupRecord (releaseToWorker s kp jobId w chain now).2.escrowRecords jobId =
        some rec) ∧
    ((releaseToWorker s kp jobId w chain now).1.success = true →
      ∃ sig rec, chain = some sig ∧ kp = true ∧
        lookupRecord s.escrowRecords jobId = some rec ∧ rec.status = .held ∧
        (releaseToWorker s kp jobId w chain now).1.txSig = some sig ∧
        lookupRecord (releaseToWorker s kp jobId w chain now).2.escrowRecords jobId =
          some { rec with
                 status := .released,
                 workerWallet := some w,
                 releaseTxSig := some sig,
                 releasedAt := some now }) := by
  refine ⟨?_, ?_, ?_, ?_⟩
  · intro hnone
    exact releaseToWorker_none s kp jobId w chain now hnone
  · intro rec hrec hstat
    rw [releaseToWorker_notHeld s kp jobId w chain now rec hrec hstat]
    exact ⟨rfl, rfl⟩
  · intro rec hrec hheld hchain
    subst hchain
    rcases kp
    · rw [releaseToWorker_noKeypair s jobId w none now rec hrec hheld]
      exact ⟨rfl, rfl, hrec⟩
    · rw [releaseToWorker_chainFail s jobId w now rec hrec hheld]
      exact ⟨rfl, rfl, hrec⟩
  · intro hsucc
    cases hrec : lookupRecord s.escrowRecords jobId with
    | none =>
      rw [releaseToWorker_none s kp jobId w chain now hrec] at hsucc
      simp at hsucc
    | some rec =>
      by_cases hstat : rec.status ≠ EscrowStatus.held
      · rw [releaseToWorker_notHeld s kp jobId w chain now rec hrec hstat] at hsucc
        simp at hsucc
      · have hheld : rec.status = .held := not_not.mp hstat
        rcases kp
        · rw [releaseToWorker_noKeypair s jobId w chain now rec hrec hheld] at hsucc
          simp at hsucc
        · rcases chain with _ | sig
          · rw [releaseToWorker_chainFail s jobId w now rec hrec hheld] at hsucc
            simp at hsucc
          · rw [releaseToWorker_chainOk s jobId w sig now rec hrec hheld]
            exact ⟨sig, rec, rfl, rfl, rfl, hheld, rfl,
              lookupRecord_setRecord_self s.escrowRecords jobId _⟩

/-- C4, witness: with a held record, a thrown chain step reports
failure and leaves the escrow state unchanged. -/
theorem c4_witness :
    (releaseToWorker sampleEscrowState true "job_a" "WRK" none 5).1.success = false ∧
    (releaseToWorker sampleEscrowState true "job_a" "WRK" none 5).2 = sampleEscrowState := by
  have h := (c4_release_failure_atomic sampleEscrowState true "job_a" "WRK" none 5).2.2.1
    sampleRecord rfl rfl rfl
  exact ⟨h.1, h.2.1⟩

lemma x402Paywall_paid (store : JobStore) (id : String) (j : Job)
    (hget : getJob store id = some j) (hpaid : j.status = .paid)
    (header : Option String) (parse : String → Option X402Payment)
    (verify : X402Payment → VerifyStep) (now : Nat) :
    x402Paywall store id header parse verify now = (.passThrough false, store) := by
  simp [x402Paywall, hget, hpaid]

/-- C6: confirmed.  After a successful `markPaid` has moved a COMPLETED
job to PAID with its first signature and timestamp, a second `markPaid`
on the same job returns no update and leaves the store — hence the
job's status, `paymentTxSig` and `paidAt` — completely unchanged; and a
duplicate settlement attempt through the paywalled result endpoint
passes straight through to the cached result (a success), because the
job is already PAID. -/
theorem c6_markPaid_idempotent (store : JobStore) (id : String) (j : Job)
    (tx1 : String) (t1 : Nat) (tx2 : String) (t2 : Nat)
    (hget : getJob store id = some j) (hst : j.status = .completed) :
    (markJobPaid store id tx1 t1).1 =
      some { j with status := .paid, paymentTxSig := some tx1, paidAt := some t1 } ∧
    getJob (markJobPaid store id tx1 t1).2 id =
      some { j with status := .paid, paymentTxSig := some tx1, paidAt := some t1 } ∧
    markJobPaid (markJobPaid store id tx1 t1).2 id tx2 t2 =
      (none, (markJobPaid store id tx1 t1).2) ∧
    (∀ (header : Option String) (parse : String → Option X402Payment)
        (verify : X402Payment → VerifyStep) (now : Nat),
      x402Paywall (markJobPaid store id tx1 t1).2 id header parse verify now =
        (.passThrough false, (markJobPaid store id tx1 t1).2)) := by
  have hs1 : markJobPaid store id tx1 t1 =
      (some { j with status := .paid, paymentTxSig := some tx1, paidAt := some t1 },
       replaceJob store id
         { j with status := .paid, paymentTxSig := some tx1, paidAt := some t1 }) := by
    simp only [markJobPaid, hget, if_pos hst]
  have hget1 : getJob
      (replaceJob store id
        { j with status := .paid, paymentTxSig := some tx1, paidAt := some t1 }) id =
      some { j with status := .paid, paymentTxSig := some tx1, paidAt := some t1 } :=
    getJob_replaceJob store id j _ hget rfl
  refine ⟨?_, ?_, ?_, ?_⟩
  · rw [hs1]
  · rw [hs1]
    exact hget1
  · rw [hs1]
    simp only [markJobPaid, hget1]
    rw [if_neg (nofun)]
  · intro header parse verify now
    rw [hs1]
    exact x402Paywall_paid _ id _ hget1 rfl header parse verify now

/-- C6, witness at the concrete COMPLETED sample job. -/
theorem c6_witness :
    markJobPaid (markJobPaid [sampleCompletedJob] "job_c0ffee01" "PAY1" 40).2
        "job_c0ffee01" "PAY2" 41 =
      (none, (markJobPaid [sampleCompletedJob] "job_c0ffee01" "PAY1" 40).2) :=
  (c6_markPaid_idempotent [sampleCompletedJob] "job_c0ffee01" sampleCompletedJob
    "PAY1" 40 "PAY2" 41 rfl rfl).2.2.1

/-- C7, counterexample: on a COMPLETED job, an `X-Payment` header that
fails base64/JSON decoding makes the paywall respond 400 — not 402 —
and without the `X-Payment-Required` challenge header, refuting the
claim that a payment failing verification (including an undecodable
header) always yields 402 with the challenge. -/
theorem c7_counterexample :
    x402Paywall [sampleCompletedJob] "job_c0ffee01" (some "garbage")
        (fun _ => none) (fun _ => .threw) 0 =
      (.respond 400 false, [sampleCompletedJob]) ∧
    PaywallResult.respond 400 false ≠ .respond 402 true := by
  exact ⟨rfl, by decide⟩

/-- C7, amended: on a COMPLETED job, a present `X-Payment` header that
cannot be decoded or parsed yields 400; a parsed payment that fails
verification yields 402, but without the `X-Payment-Required` challenge
header re-attached; only the missing-header branch answers 402 carrying
the challenge. -/
theorem c7_amended (store : JobStore) (id : String) (j : Job) (header : String)
    (parse : String → Option X402Payment) (verify : X402Payment → VerifyStep)
    (now : Nat) (hget : getJob store id = some j) (hst : j.status = .completed) :
    (parse header = none →
      x402Paywall store id (some header) parse verify now = (.respond 400 false, store)) ∧
    (∀ p sig, parse header = some p → verify p = .failed sig →
      x402Paywall store id (some header) parse verify now = (.respond 402 false, store)) ∧
    x402Paywall store id none parse verify now = (.respond 402 true, store) := by
  refine ⟨?_, ?_, ?_⟩
  · intro hp
    simp [x402Paywall, hget, hst, hp]
  · intro p sig hp hv
    simp [x402Paywall, hget, hst, hp, hv]
  · simp [x402Paywall, hget, hst]

/-- C7, witness for the amended theorem: a parsed payment whose
verification fails yields 402 without the challenge header. -/
theorem c7_amended_witness :
    x402Paywall [sampleCompletedJob] "job_c0ffee01" (some "hdr")
        (fun _ => some ⟨"tx-bytes"⟩) (fun _ => .failed "SIG") 0 =
      (.respond 402 false, [sampleCompletedJob]) :=
  (c7_amended [sampleCompletedJob] "job_c0ffee01" sampleCompletedJob "hdr"
    (fun _ => some ⟨"tx-bytes"⟩) (fun _ => .failed "SIG") 0 rfl rfl).2.1
    ⟨"tx-bytes"⟩ "SIG" rfl rfl

lemma refundToRequester_noKeypair (s : EscrowState) (jobId : String)
    (chain : Option String) (now : Nat) (rec : EscrowRecord)
    (hrec : lookupRecord s.escrowRecords jobId = some rec)
    (hheld : rec.status = .held) :
    refundToRequester s false jobId chain now =
      (⟨false, none, some "Escrow wallet not configured"⟩, s) := by
  have hns : ¬ rec.status ≠ EscrowStatus.held := fun h => h hheld
  simp [refundToRequester, hrec, hns]

lemma refundToRequester_chainFail (s : EscrowState) (jobId : String) (now : Nat)
    (rec : EscrowRecord)
    (hrec : lookupRecord s.escrowRecords jobId = some rec)
    (hheld : rec.status = .held) :
    refundToRequester s true jobId none now =
      (⟨false, none, some "Refund transaction failed"⟩, s) := by
  have hns : ¬ rec.status ≠ EscrowStatus.held := fun h => h hheld
  simp [refundToRequester, hrec, hns]

lemma refundToRequester_chainOk (s : EscrowState) (jobId sig : String) (now : Nat)
    (rec : EscrowRecord)
    (hrec : lookupRecord s.escrowRecords jobId = some rec)
    (hheld : rec.status = .held) :
    refundToRequester s true jobId (some sig) now =
      (⟨true, some sig, none⟩,
       ⟨setRecord s.escrowRecords jobId
          { rec with
            status := .refunded,
            releaseTxSig := some sig,
            releasedAt := some now }, s.usedDepositTxs⟩) := by
  have hns : ¬ rec.status ≠ EscrowStatus.held := fun h => h hheld
  simp [refundToRequester, hrec, hns]

/-- C10: confirmed.  In the cancel endpoint, for an OPEN job with a
held escrow record the refund runs before any job mutation: when
`refundToRequester` fails the handler answers 500 with the job store
untouched (the job stays OPEN, so the cancellation can be retried) and
the escrow state untouched; and when the handler answers 200, the
escrow record was first marked `refunded` (with the confirmed refund
signature) and only then was the job updated OPEN → CANCELLED. -/
theorem c10_cancel_refund_before_transition (store : JobStore) (es : EscrowState)
    (id w : String) (kp : Bool) (chain : Option String) (now : Nat)
    (j : Job) (rec : EscrowRecord)
    (hget : getJob store id = some j) (hst : j.status = .opened)
    (hreq : j.requesterWallet = w)
    (hrec : lookupRecord es.escrowRecords id = some rec) (hheld : rec.status = .held) :
    ((refundToRequester es kp id chain now).1.success = false →
      cancelRoute store es id w kp chain now = (500, store, es)) ∧
    ((refundToRequester es kp id chain now).1.success = true →
      ∃ sig, chain = some sig ∧
        cancelRoute store es id w kp chain now =
          (200, replaceJob store id { j with status := .cancelled },
           ⟨setRecord es.escrowRecords id
              { rec with
                status := .refunded,
                releaseTxSig := some sig,
                releasedAt := some now }, es.usedDepositTxs⟩) ∧
        getJob (cancelRoute store es id w kp chain now).2.1 id =
          some { j with status := .cancelled } ∧
        lookupRecord (cancelRoute store es id w kp chain now).2.2.escrowRecords id =
          some { rec with
                 status := .refunded,
                 releaseTxSig := some sig,
                 releasedAt := some now }) := by
  have hhas : hasVerifiedEscrow es id = true := by
    simp [hasVerifiedEscrow, hrec, hheld]
  have hroute : ∀ res : EscrowOpResult, ∀ es' : EscrowState,
      refundToRequester es kp id chain now = (res, es') →
      cancelRoute store es id w kp chain now =
        (if res.success then (200, (cancelJob store id w).2, es') else (500, store, es')) := by
    intro res es' hre
    simp only [cancelRoute, hget, hre]
    rw [if_neg (fun h => h hreq), if_neg (fun h => h.2 hst), if_pos ⟨hst, hhas⟩]
  have hcond : j.requesterWallet = w ∧
      (j.status = JobStatus.pendingDeposit ∨ j.status = JobStatus.opened) :=
    ⟨hreq, Or.inr hst⟩
  have hcanc : cancelJob store id w =
      (some { j with status := .cancelled }, replaceJob store id { j with status := .cancelled }) := by
    simp only [cancelJob, hget]
    rw [if_pos hcond]
  constructor
  · intro hfail
    rcases kp
    · rw [hroute _ _ (refundToRequester_noKeypair es id chain now rec hrec hheld)]
      rfl
    · rcases chain with _ | sig
      · rw [hroute _ _ (refundToRequester_chainFail es id now rec hrec hheld)]
        rfl
      · rw [refundToRequester_chainOk es id sig now rec hrec hheld] at hfail
        simp at hfail
  · intro hsucc
    rcases kp
    · rw [refundToRequester_noKeypair es id chain now rec hrec hheld] at hsucc
      simp at hsucc
    · rcases chain with _ | sig
      · rw [refundToRequester_chainFail es id now rec hrec hheld] at hsucc
        simp at hsucc
      · have hr := hroute _ _ (refundToRequester_chainOk es id sig now rec hrec hheld)
        rw [hcanc] at hr
        simp only [if_pos rfl] at hr
        refine ⟨sig, rfl, hr, ?_, ?_⟩
        · rw [hr]
          exact getJob_replaceJob store id j _ hget rfl
        · rw [hr]
          exact lookupRecord_setRecord_self es.escrowRecords id _

/-- C10, witness: a failed refund (chain step threw) makes the cancel
endpoint answer 500 with both stores unchanged. -/
theorem c10_witness :
    cancelRoute [sampleJob] ⟨[("job_c0ffee01", { sampleRecord with jobId := "job_c0ffee01" })],
        ["DEPSIG"]⟩ "job_c0ffee01" "REQWALLET" true none 9 =
      (500, [sampleJob],
       ⟨[("job_c0ffee01", { sampleRecord with jobId := "job_c0ffee01" })], ["DEPSIG"]⟩) :=
  (c10_cancel_refund_before_transition [sampleJob]
    ⟨[("job_c0ffee01", { sampleRecord with jobId := "job_c0ffee01" })], ["DEPSIG"]⟩
    "job_c0ffee01" "REQWALLET" true none 9 sampleJob
    { sampleRecord with jobId := "job_c0ffee01" } rfl rfl rfl rfl rfl).1 rfl

end OpenClaw
